import Mathlib

/-!
Verification of the timecode core of SuperTimecodeConverter.

This file gives a shallow embedding, in Lean 4, of the parts of the
SuperTimecodeConverter source that the specification's testable claims are
about, together with proofs (or refutations) of those claims.

Conventions used throughout the embedding:

* C `int`/`int64_t` values are modelled as `ℤ`; C truncating division `/`
  and remainder `%` are `Int.tdiv` / `Int.tmod`.
* C `double` values are modelled as exact rationals `ℚ`; a C cast
  `(int64_t)x` is `truncQ` (truncation toward zero).  Every concrete
  computation relied on below is far from a representability boundary, so
  the idealisation agrees with IEEE-754 evaluation at those points.
* C bitwise operations on machine integers whose two's-complement meaning
  is arithmetic are written arithmetically: `x & 0xFF` is `x % 256`
  (`Int.emod` is exactly the low byte of a two's-complement int),
  `x >> k` is division by `2 ^ k`, and `a | b` on operands with disjoint
  bit ranges is `a + b`.  Each such site is commented at the definition.
* `uint32_t` / `uint64_t` values are modelled as `ℕ` with explicit
  reduction modulo `2 ^ 32` (`U32`) where wrap-around matters.
-/

/-- Embedding of `enum class FrameRate` from `TimecodeCore.h`. -/
inductive FrameRate where
  | FPS_2398
  | FPS_24
  | FPS_25
  | FPS_2997
  | FPS_30
deriving DecidableEq, Repr

export FrameRate (FPS_2398 FPS_24 FPS_25 FPS_2997 FPS_30)

/-- Embedding of `struct Timecode` from `TimecodeCore.h` (four C `int` fields). -/
structure Timecode where
  hours : ℤ
  minutes : ℤ
  seconds : ℤ
  frames : ℤ
deriving DecidableEq, Repr

/-- Embedding of `frameRateToDouble` from `TimecodeCore.h`; the C `double`
constants `24000.0 / 1001.0` and `30000.0 / 1001.0` are modelled exactly. -/
def frameRateToDouble : FrameRate → ℚ
  | FPS_2398 => 24000 / 1001
  | FPS_24 => 24
  | FPS_25 => 25
  | FPS_2997 => 30000 / 1001
  | FPS_30 => 30

/-- Embedding of `frameRateToInt` from `TimecodeCore.h` (the frame modulus). -/
def frameRateToInt : FrameRate → ℤ
  | FPS_2398 => 24
  | FPS_24 => 24
  | FPS_25 => 25
  | FPS_2997 => 30
  | FPS_30 => 30

/-- Embedding of `fpsToRateCode` from `TimecodeCore.h`
(SMPTE rate code shared by MTC and Art-Net). -/
def fpsToRateCode : FrameRate → ℤ
  | FPS_2398 => 0
  | FPS_24 => 0
  | FPS_25 => 1
  | FPS_2997 => 2
  | FPS_30 => 3

/-- Embedding of `incrementFrame` from `TimecodeCore.h`: advance a timecode by
one frame, wrapping at 24 h, with the SMPTE drop-frame skip for 29.97. -/
def incrementFrame (tc : Timecode) (fps : FrameRate) : Timecode :=
  let maxFrames := frameRateToInt fps
  let f1 := tc.frames + 1
  let carryS := maxFrames ≤ f1
  let f2 := if carryS then 0 else f1
  let s1 := if carryS then tc.seconds + 1 else tc.seconds
  let carryM := (60 : ℤ) ≤ s1
  let s2 := if carryM then 0 else s1
  let m1 := if carryM then tc.minutes + 1 else tc.minutes
  let carryH := (60 : ℤ) ≤ m1
  let m2 := if carryH then 0 else m1
  let h1 := if carryH then tc.hours + 1 else tc.hours
  let h2 := if (24 : ℤ) ≤ h1 then 0 else h1
  -- Drop-frame: skip frames 0 and 1 at the start of each minute
  -- except every 10th minute (the C condition `(r.minutes % 10) != 0`)
  if fps = FPS_2997 ∧ f2 = 0 ∧ s2 = 0 ∧ m2.tmod 10 ≠ 0 then
    ⟨h2, m2, s2, 2⟩
  else
    ⟨h2, m2, s2, f2⟩

/-- Embedding of `packTimecode` from `TimecodeCore.h`.  The C expression
`(uint64_t)(h & 0xFF) << 24 | ...` is modelled with `h % 256` for the
two's-complement low byte `h & 0xFF` (they agree on every C `int`). -/
def packTimecode (h m s f : ℤ) : ℕ :=
  ((h % 256).toNat <<< 24) ||| ((m % 256).toNat <<< 16) |||
    ((s % 256).toNat <<< 8) ||| (f % 256).toNat

/-- Embedding of `unpackTimecode` from `TimecodeCore.h`. -/
def unpackTimecode (packed : ℕ) : Timecode :=
  ⟨((packed >>> 24) &&& 255 : ℕ), ((packed >>> 16) &&& 255 : ℕ),
    ((packed >>> 8) &&& 255 : ℕ), (packed &&& 255 : ℕ)⟩

/-- Truncation toward zero of a rational: the meaning of a C cast
`(int64_t)x` applied to a `double`. -/
def truncQ (q : ℚ) : ℤ :=
  if q < 0 then -⌊-q⌋ else ⌊q⌋

/-- Embedding of `wallClockToTimecode` from `TimecodeCore.h`: convert
milliseconds since midnight to a timecode, using SMPTE drop-frame counting
for 29.97 fps and plain truncating conversion otherwise. -/
def wallClockToTimecode (msSinceMidnight : ℚ) (fps : FrameRate) : Timecode :=
  if fps = FPS_2997 then
    let exactFps : ℚ := 30000 / 1001
    let totalFrames : ℤ := truncQ (msSinceMidnight / 1000 * exactFps)
    let framesPerTenMin : ℤ := 17982
    let framesPerMin : ℤ := 1798
    let tenMinBlocks := totalFrames.tdiv framesPerTenMin
    let remainder := totalFrames.tmod framesPerTenMin
    let minutesSinceBlock : ℤ :=
      if remainder < 1800 then 0 else 1 + (remainder - 1800).tdiv framesPerMin
    let frameNumber := totalFrames + 18 * tenMinBlocks + 2 * minutesSinceBlock
    ⟨(frameNumber.tdiv 108000).tmod 24, (frameNumber.tdiv 1800).tmod 60,
      (frameNumber.tdiv 30).tmod 60, frameNumber.tmod 30⟩
  else
    let fpsVal := frameRateToDouble fps
    let maxFrames := frameRateToInt fps
    let secondsTotal := msSinceMidnight / 1000
    let totalSeconds : ℤ := truncQ secondsTotal
    let fractional : ℚ := secondsTotal - (totalSeconds : ℚ)
    ⟨(totalSeconds.tdiv 3600).tmod 24, (totalSeconds.tdiv 60).tmod 60,
      totalSeconds.tmod 60, (truncQ (fractional * fpsVal)).tmod maxFrames⟩

/-- Embedding of `timecodeToMs` from `TimecodeCore.h`: convert a timecode back
to milliseconds since midnight (inverse direction of `wallClockToTimecode`). -/
def timecodeToMs (tc : Timecode) (fps : FrameRate) : ℚ :=
  if fps = FPS_2997 then
    let totalMinutes := tc.hours * 60 + tc.minutes
    let tenMinBlocks := totalMinutes.tdiv 10
    let frameNumber : ℤ :=
      tc.hours * 108000 + tc.minutes * 1800 + tc.seconds * 30 + tc.frames
    let droppedFrames := 2 * (totalMinutes - tenMinBlocks)
    let actualFrames := frameNumber - droppedFrames
    (actualFrames : ℚ) / (30000 / 1001) * 1000
  else
    let fpsVal := frameRateToDouble fps
    ((tc.hours : ℚ) * 3600 + (tc.minutes : ℚ) * 60 + (tc.seconds : ℚ)) * 1000 +
      ((tc.frames : ℚ) / fpsVal) * 1000

/-- Embedding of `convertTimecodeRate` from `TimecodeCore.h`. -/
def convertTimecodeRate (tc : Timecode) (fromFps toFps : FrameRate) : Timecode :=
  if fromFps = toFps then tc
  else wallClockToTimecode (timecodeToMs tc fromFps) toFps

/-- A timecode slot that drop-frame counting skips: frames 0 and 1 at the
start of a minute that is not a multiple of 10 (spec section 3). -/
def droppedSlotDF (tc : Timecode) : Prop :=
  tc.frames < 2 ∧ tc.seconds = 0 ∧ tc.minutes.tmod 10 ≠ 0

instance (tc : Timecode) : Decidable (droppedSlotDF tc) := by
  unfold droppedSlotDF
  infer_instance

/-- Validity of a timecode at a frame rate (spec section 3): fields in range,
frames below the frame modulus, and for 29.97 DF not a skipped slot. -/
def validTimecode (tc : Timecode) (fps : FrameRate) : Prop :=
  0 ≤ tc.hours ∧ tc.hours < 24 ∧ 0 ≤ tc.minutes ∧ tc.minutes < 60 ∧
    0 ≤ tc.seconds ∧ tc.seconds < 60 ∧ 0 ≤ tc.frames ∧
    tc.frames < frameRateToInt fps ∧ (fps = FPS_2997 → ¬droppedSlotDF tc)

instance (tc : Timecode) (fps : FrameRate) : Decidable (validTimecode tc fps) := by
  unfold validTimecode
  infer_instance

/-! ### Art-Net output and input (`ArtnetOutput.h`, `ArtnetInput.h`) -/

/-- Embedding of the `switch (currentFps)` in `ArtnetOutput::sendArtTimeCode`.
The C switch has no case for `FPS_2398`, so `rateCode` keeps its
initialiser `0` there. -/
def artnetRateCode : FrameRate → ℕ
  | FPS_24 => 0
  | FPS_25 => 1
  | FPS_2997 => 2
  | FPS_30 => 3
  | FPS_2398 => 0

/-- Embedding of `ArtnetOutput::sendArtTimeCode`: the 19-byte ArtTimeCode
packet built from the pending timecode and rate.  A C `(uint8_t)` cast of an
`int` field is its value modulo 256. -/
def sendArtTimeCode (tc : Timecode) (fps : FrameRate) : List ℕ :=
  [65, 114, 116, 45, 78, 101, 116, 0,
   0x00, 0x97,
   0, 0, 0, 0,
   (tc.frames % 256).toNat, (tc.seconds % 256).toNat,
   (tc.minutes % 256).toNat, (tc.hours % 256).toNat,
   artnetRateCode fps]

/-- Embedding of the rate-code switch in `ArtnetInput::parseArtNetPacket`
(the `& 0x03` mask makes codes 0-3 the only possibilities). -/
def artnetRateToFps (rateCode : ℕ) (prev : FrameRate) : FrameRate :=
  if rateCode = 0 then FPS_24
  else if rateCode = 1 then FPS_25
  else if rateCode = 2 then FPS_2997
  else if rateCode = 3 then FPS_30
  else prev

/-- Embedding of `ArtnetInput::parseArtNetPacket`: validates signature, opcode,
protocol version and field ranges; `none` models the early `return` paths on
which no timecode is stored and the receive timestamp is not updated. -/
def parseArtNetPacket (data : List ℕ) (prevFps : FrameRate) :
    Option (Timecode × FrameRate) :=
  if data.length < 19 then none
  else if ¬(data.getD 0 0 = 65 ∧ data.getD 1 0 = 114 ∧ data.getD 2 0 = 116 ∧
      data.getD 3 0 = 45 ∧ data.getD 4 0 = 78 ∧ data.getD 5 0 = 101 ∧
      data.getD 6 0 = 116 ∧ data.getD 7 0 = 0) then none
  else if (data.getD 8 0) ||| ((data.getD 9 0) <<< 8) ≠ 0x9700 then none
  else if ((data.getD 10 0) <<< 8) ||| (data.getD 11 0) < 14 then none
  else
    let frames := data.getD 14 0
    let seconds := data.getD 15 0
    let minutes := data.getD 16 0
    let hours := data.getD 17 0
    let rateCode := (data.getD 18 0) % 4
    if 23 < hours ∨ 59 < minutes ∨ 59 < seconds ∨ 29 < frames then none
    else some (⟨(hours : ℤ), (minutes : ℤ), (seconds : ℤ), (frames : ℤ)⟩,
      artnetRateToFps rateCode prevFps)

/-- Embedding of `ArtnetOutput::updateTimerRate`: the `juce::Timer` period in
milliseconds, `jmax(1, (int)(1000.0 / fps))`. -/
def artnetTimerIntervalMs (fps : FrameRate) : ℤ :=
  max 1 (truncQ (1000 / frameRateToDouble fps))

/-- Embedding of `MtcOutput::updateTimerRate`: the high-resolution timer is
started with a fixed 1 ms period (`startTimer(1)`). -/
def mtcTimerIntervalMs : ℤ := 1

/-- Embedding of `ArtnetOutput::timerCallback`: the list of packets sent in
one timer callback.  The callback sends exactly one packet when the output is
running, enabled, unpaused and has a socket, and none otherwise. -/
def artnetTimerCallbackSends (isRunning outputEnabled paused hasSocket : Bool)
    (tc : Timecode) (fps : FrameRate) : List (List ℕ) :=
  if ¬isRunning ∨ ¬outputEnabled ∨ paused ∨ ¬hasSocket then []
  else [sendArtTimeCode tc fps]

/-- The ideal quarter-frame interval of `MtcOutput::hiResTimerCallback`:
`1000.0 / (fps * 4.0)` milliseconds. -/
def mtcQfInterval (fps : FrameRate) : ℚ :=
  1000 / (frameRateToDouble fps * 4)

/-- Embedding of the fractional-accumulator loop of
`MtcOutput::hiResTimerCallback`: given the current time and the stored
`lastQfSendTime`, returns how many quarter-frames are emitted in this 1 ms
callback and the updated `lastQfSendTime`.  The C `while` loop is bounded by
`sent < 2`, so it is unrolled twice; afterwards the accumulator is reset to
`now` when more than 50 ms behind. -/
def mtcSchedulerEmitCount (fps : FrameRate) (now lastSend : ℚ) : ℕ × ℚ :=
  let qfInterval := mtcQfInterval fps
  let p1 := if qfInterval ≤ now - lastSend then ((1 : ℕ), lastSend + qfInterval)
            else (0, lastSend)
  let p2 := if p1.1 = 1 ∧ qfInterval ≤ now - p1.2 then (p1.1 + 1, p1.2 + qfInterval)
            else p1
  if 50 < now - p2.2 then (p2.1, now) else p2

/-! ### MTC codec (`MtcOutput.h`, `MtcInput.h`) -/

/-- Embedding of the `switch (index)` in `MtcOutput::sendQuarterFrame`.  A C
right shift of a nonnegative-range `int` is division by the power of two and a
mask `& (2^k - 1)` is `%`; so `(frames >> 4) & 0x01` is `frames / 16 % 2`.  At
index 7 the C `((hours >> 4) & 0x01) | (rateCode << 1)` combines disjoint bit
ranges, hence the `+`. -/
def mtcQfValue (tc : Timecode) (fps : FrameRate) (index : ℤ) : ℤ :=
  if index = 0 then tc.frames % 16
  else if index = 1 then tc.frames / 16 % 2
  else if index = 2 then tc.seconds % 16
  else if index = 3 then tc.seconds / 16 % 4
  else if index = 4 then tc.minutes % 16
  else if index = 5 then tc.minutes / 16 % 4
  else if index = 6 then tc.hours % 16
  else if index = 7 then tc.hours / 16 % 2 + fpsToRateCode fps * 2
  else 0

/-- Embedding of the data byte `(uint8_t)((index << 4) | (value & 0x0F))`
formed by `MtcOutput::sendQuarterFrame` (disjoint bit ranges, so `|` is `+`). -/
def mtcQfDataByte (tc : Timecode) (fps : FrameRate) (index : ℤ) : ℤ :=
  index * 16 + mtcQfValue tc fps index % 16

/-- The eight quarter-frame data bytes emitted for one cycle snapshot, in
index order 0..7. -/
def mtcQfStream (tc : Timecode) (fps : FrameRate) : List ℤ :=
  (List.range 8).map fun i => mtcQfDataByte tc fps (i : ℤ)

/-- Embedding of the quarter-frame branch of
`MtcInput::handleIncomingMidiMessage`: store `dataByte & 0x0F` into
`mtcData[(dataByte >> 4) & 0x07]`. -/
def mtcQfStore (mtcData : ℕ → ℤ) (dataByte : ℤ) : ℕ → ℤ :=
  let index := dataByte / 16 % 8
  let value := dataByte % 16
  if 0 ≤ index ∧ index ≤ 7 then
    fun i => if (i : ℤ) = index then value else mtcData i
  else mtcData

/-- Embedding of `MtcInput::updateDetectedFps` (unknown rate codes keep the
previous value). -/
def updateDetectedFps (prev : FrameRate) (rateCode : ℤ) : FrameRate :=
  if rateCode = 0 then FPS_24
  else if rateCode = 1 then FPS_25
  else if rateCode = 2 then FPS_2997
  else if rateCode = 3 then FPS_30
  else prev

/-- Embedding of `MtcInput::reconstructAndSync`: assemble the eight stored
nibbles, add the 2-frame quarter-frame lag compensation, and decompose.  The
stored nibbles are `& 0x0F` masked, hence below 16, so the C
`mtcData[0] | (mtcData[1] << 4)` combines disjoint bit ranges and is `+`. -/
def reconstructAndSync (mtcData : ℕ → ℤ) (prevFps : FrameRate) :
    Timecode × FrameRate :=
  let frames := mtcData 0 + mtcData 1 * 16
  let seconds := mtcData 2 + mtcData 3 * 16
  let minutes := mtcData 4 + mtcData 5 * 16
  let hours := mtcData 6 + mtcData 7 % 2 * 16
  let rateCode := mtcData 7 / 2 % 4
  let fps := updateDetectedFps prevFps rateCode
  let maxFrames := frameRateToInt fps
  let totalFrames := hours * 3600 * maxFrames + minutes * 60 * maxFrames +
    seconds * maxFrames + frames + 2
  (⟨(totalFrames.tdiv (maxFrames * 3600)).tmod 24,
    (totalFrames.tdiv (maxFrames * 60)).tmod 60,
    (totalFrames.tdiv maxFrames).tmod 60,
    totalFrames.tmod maxFrames⟩, fps)

/-- Embedding of `MtcOutput::sendFullFrame`: `none` models the early return on
out-of-range fields (nothing is sent); otherwise the ten SysEx bytes.  The
`hr` byte `(tc.hours & 0x1F) | (rateCode << 5)` combines disjoint bit ranges,
hence `tc.hours % 32 + rateCode * 32`. -/
def sendFullFrame (tc : Timecode) (fps : FrameRate) : Option (List ℤ) :=
  if 23 < tc.hours ∨ 59 < tc.minutes ∨ 59 < tc.seconds ∨
      frameRateToInt fps ≤ tc.frames then none
  else some [0xF0, 0x7F, 0x7F, 0x01, 0x01,
    tc.hours % 32 + fpsToRateCode fps * 32,
    tc.minutes % 256, tc.seconds % 256, tc.frames % 256, 0xF7]

/-- Embedding of the full-frame SysEx branch of
`MtcInput::handleIncomingMidiMessage`, applied to the SysEx payload (the bytes
between `F0` and `F7`): checks the `7F 7F 01 01` header, then stores the
carried fields directly, with `rateCode = (hr >> 5) & 0x03` and
`hr &= 0x1F`. -/
def mtcDecodeFullFrame (sysex : List ℤ) (prevFps : FrameRate) :
    Option (Timecode × FrameRate) :=
  if 8 ≤ sysex.length ∧ sysex.getD 0 0 = 0x7F ∧ sysex.getD 1 0 = 0x7F ∧
      sysex.getD 2 0 = 0x01 ∧ sysex.getD 3 0 = 0x01 then
    let hr := sysex.getD 4 0
    let rateCode := hr / 32 % 4
    some (⟨hr % 32, sysex.getD 5 0, sysex.getD 6 0, sysex.getD 7 0⟩,
      updateDetectedFps prevFps rateCode)
  else none

/-- Specification-side definition for claim comparison: `tc` plus `n` frames,
added on a linear frame count modulo the frame modulus and the 24-hour day
(the spec's "add 2 frames modulo the rate" lag compensation). -/
def tcPlusFramesSpec (tc : Timecode) (n maxFrames : ℤ) : Timecode :=
  let total := tc.hours * 3600 * maxFrames + tc.minutes * 60 * maxFrames +
    tc.seconds * maxFrames + tc.frames + n
  let day := 24 * 3600 * maxFrames
  let w := (total % day + day) % day
  ⟨w / (3600 * maxFrames), w / (60 * maxFrames) % 60, w / maxFrames % 60,
    w % maxFrames⟩

/-! ### LTC encoder waveform state machine (`LtcOutput.h`) -/

/-- Number of bits in an LTC frame (`LTC_FRAME_BITS`). -/
def LTC_FRAME_BITS : ℕ := 80

/-- The waveform-generator state of `LtcOutput`: bit cursor, half-cell cursor,
current output level (±1) and the new-frame flag. -/
structure LtcWaveState where
  currentBitIndex : ℕ
  halfCellIndex : ℕ
  currentLevel : ℤ
  needNewFrame : Bool
deriving DecidableEq, Repr

/-- Embedding of the half-cell advance in
`LtcOutput::audioDeviceIOCallbackWithContext` (the body of
`if (samplePositionInHalfBit >= samplesPerHalfBit)`): on `0 → 1` invert the
level iff the current bit is a `1`; on `1 → 0` advance the bit cursor and
invert the level, except that when the cursor reaches bit 80 the code only
sets `needNewFrame` and performs no inversion. -/
def ltcHalfCellAdvance (frameBits : ℕ → ℕ) (s : LtcWaveState) : LtcWaveState :=
  if s.halfCellIndex = 0 then
    { s with halfCellIndex := 1,
             currentLevel := if frameBits s.currentBitIndex = 1 then
               -s.currentLevel else s.currentLevel }
  else
    let b := s.currentBitIndex + 1
    if LTC_FRAME_BITS ≤ b then
      { s with halfCellIndex := 0, currentBitIndex := b, needNewFrame := true }
    else
      { s with halfCellIndex := 0, currentBitIndex := b,
               currentLevel := -s.currentLevel }

/-- Embedding of the frame-load branch of the same callback
(`if (needNewFrame)`): the cursors are reset and, per the comment in the
source, the level is deliberately not inverted. -/
def ltcLoadNewFrame (s : LtcWaveState) : LtcWaveState :=
  { s with currentBitIndex := 0, halfCellIndex := 0, needNewFrame := false }

/-! ### Engine device-conflict policy (`TimecodeEngine.h`) -/

/-- The part of `TimecodeEngine` state involved in the device-conflict policy
between `startLtcOutput` and `startThruOutput`. -/
structure EngineDevState where
  hasAudioThru : Bool
  thruRunning : Bool
  thruTypeName : String
  thruDevName : String
  thruOutStatusText : String
  ltcOutRunning : Bool
  ltcOutTypeName : String
  ltcOutDevName : String
  ltcOutStatusText : String
  outputLtcEnabled : Bool
  ltcInRunning : Bool
  ltcInHasPassthru : Bool
deriving DecidableEq, Repr

/-- Embedding of `TimecodeEngine::stopLtcOutput`. -/
def stopLtcOutputE (s : EngineDevState) : EngineDevState :=
  { s with ltcOutRunning := false, ltcOutStatusText := "" }

/-- Embedding of `TimecodeEngine::stopThruOutput`. -/
def stopThruOutputE (s : EngineDevState) : EngineDevState :=
  { s with thruRunning := false, thruOutStatusText := "" }

/-- Embedding of `TimecodeEngine::startLtcOutput`.  `openSucceeds` stands for
the result of `ltcOutput.start(...)` (whether the audio device opens).  The
returned `Bool` is the C return value.  Status texts are the source's
literals; the channel suffix of the success text is elided. -/
def startLtcOutputE (typeName devName : String) (openSucceeds : Bool)
    (s : EngineDevState) : Bool × EngineDevState :=
  let s1 := stopLtcOutputE s
  if devName = "" then
    (false, { s1 with ltcOutStatusText := "NO AUDIO DEVICE AVAILABLE" })
  else
    let s2 :=
      if s1.hasAudioThru ∧ s1.thruRunning ∧ s1.thruDevName = devName ∧
          s1.thruTypeName = typeName then
        { stopThruOutputE s1 with
            thruOutStatusText := "CONFLICT: same device as LTC OUT" }
      else s1
    if openSucceeds then
      let s3 := { s2 with ltcOutRunning := true, ltcOutTypeName := typeName }
      (true, { s3 with ltcOutDevName := devName, ltcOutStatusText := "TX: " ++ devName })
    else (false, { s2 with ltcOutStatusText := "FAILED TO OPEN AUDIO DEVICE" })

/-- Embedding of `TimecodeEngine::startThruOutput`.  On a device conflict with
a running LTC output the function returns `false` with a conflict status and
does not stop the LTC output. -/
def startThruOutputE (typeName devName : String) (openSucceeds : Bool)
    (s : EngineDevState) : Bool × EngineDevState :=
  let s1 := stopThruOutputE s
  if ¬s1.hasAudioThru then (false, s1)
  else if ¬(s1.ltcInRunning ∧ s1.ltcInHasPassthru) then
    (false, { s1 with thruOutStatusText := "WAITING FOR LTC INPUT" })
  else if devName = "" then
    (false, { s1 with thruOutStatusText := "NO AUDIO DEVICE" })
  else if s1.outputLtcEnabled ∧ s1.ltcOutRunning ∧ s1.ltcOutDevName = devName ∧
      s1.ltcOutTypeName = typeName then
    (false, { s1 with thruOutStatusText := "CONFLICT: same device as LTC OUT" })
  else if openSucceeds then
    let s2 := { s1 with thruRunning := true, thruTypeName := typeName }
    (true, { s2 with thruDevName := devName, thruOutStatusText := "THRU: " ++ devName })
  else (false, { s1 with thruOutStatusText := "FAILED TO OPEN" })

/-! ### Pass-through ring buffer (`LtcInput.h`) -/

/-- Ring capacity `RING_SIZE` from `LtcInput.h`. -/
def RING_SIZE : ℕ := 32768

/-- The modulus of `uint32_t` arithmetic. -/
def U32 : ℕ := 4294967296

/-- Unsigned 32-bit subtraction `a - b` on values reduced modulo `2 ^ 32`. -/
def u32sub (a b : ℕ) : ℕ :=
  (a % U32 + (U32 - b % U32)) % U32

/-- State of the pass-through ring buffer: the sample store (indexed by the
masked position), the `uint32_t` write/read positions, and the overrun and
underrun counters. -/
structure RingState where
  buf : ℕ → ℚ
  writePos : ℕ
  readPos : ℕ
  overruns : ℕ
  underruns : ℕ

/-- The reset state produced by `resetPassthruBuffer` plus
`resetPassthruCounters`: positions zero, buffer zero-filled. -/
def initRing : RingState :=
  ⟨fun _ => 0, 0, 0, 0, 0⟩

/-- Write the samples of `l` at successive positions `base, base + 1, ...`,
each reduced modulo the ring size (the C index `(wp + i) & RING_MASK`; masking
the low 15 bits of a `uint32_t` sum is reduction mod 32768). -/
def writeSeq : (ℕ → ℚ) → ℕ → List ℚ → ℕ → ℚ
  | buf, _, [] => buf
  | buf, base, x :: xs =>
      writeSeq (fun j => if j = base % RING_SIZE then x else buf j) (base + 1) xs

/-- Embedding of the producer side (the pass-through section of
`LtcInput::audioDeviceIOCallbackWithContext`): applies the pass-through gain,
writes only the samples that fit while keeping one sentinel slot reserved
(write requires at least 2 free slots), counts an overrun when truncating.
Returns the accepted (actually stored) samples and the new state. -/
def ringWrite (thruData : List ℚ) (pGain : ℚ) (s : RingState) :
    List ℚ × RingState :=
  let numSamples := thruData.length
  let used := u32sub s.writePos s.readPos
  let freeSlots := u32sub RING_SIZE used
  let toWrite := if 2 ≤ freeSlots then min numSamples (freeSlots - 1) else 0
  let accepted := (thruData.map fun x => x * pGain).take toWrite
  (accepted,
   { s with buf := writeSeq s.buf s.writePos accepted,
            writePos := (s.writePos + toWrite) % U32,
            overruns := if toWrite < numSamples then s.overruns + 1
                        else s.overruns })

/-- Embedding of the consumer side (`LtcInput::readPassthruSamples`): reads up
to `min(numSamples, available)` samples, zero-fills the unsatisfied tail,
counts an underrun when short.  Returns the destination buffer contents and
the new state. -/
def ringRead (numSamples : ℕ) (s : RingState) : List ℚ × RingState :=
  let available := u32sub s.writePos s.readPos
  let toRead := min numSamples available
  let dest := (List.range numSamples).map fun i =>
    if i < toRead then s.buf ((s.readPos + i) % RING_SIZE) else 0
  (dest,
   { s with readPos := (s.readPos + toRead) % U32,
            underruns := if toRead < numSamples then s.underruns + 1
                         else s.underruns })

/-- An interleaving step: one producer write (a callback delivering a block of
input samples) or one consumer read (a callback requesting a block). -/
inductive RingOp where
  | write (thruData : List ℚ) (pGain : ℚ)
  | read (numSamples : ℕ)

/-- Run one operation, also accumulating the stream `w` of all samples ever
stored by the producer and the stream `r` of all samples ever returned from
the buffer by the consumer (excluding the explicit zero-fill tails). -/
def ringStep : RingState × List ℚ × List ℚ → RingOp → RingState × List ℚ × List ℚ
  | (s, w, r), .write xs g =>
      let p := ringWrite xs g s
      (p.2, w ++ p.1, r)
  | (s, w, r), .read n =>
      let toRead := min n (u32sub s.writePos s.readPos)
      let p := ringRead n s
      (p.2, w, r ++ p.1.take toRead)

/-- Run a whole interleaved sequence of producer writes and consumer reads
from the reset state. -/
def ringRun (ops : List RingOp) : RingState × List ℚ × List ℚ :=
  ops.foldl ringStep (initRing, [], [])

/-- The inductive invariant of the ring: positions are the stream lengths
reduced mod `2 ^ 32`, the consumer never overtakes the producer, occupancy is
at most `RING_SIZE - 1`, the consumed stream is a prefix of the stored stream,
and the buffer holds the not-yet-consumed stored samples. -/
def RingInv (s : RingState) (w r : List ℚ) : Prop :=
  s.writePos = w.length % U32 ∧
  s.readPos = r.length % U32 ∧
  r.length ≤ w.length ∧
  w.length - r.length ≤ RING_SIZE - 1 ∧
  r = w.take r.length ∧
  ∀ j, r.length ≤ j → j < w.length → s.buf (j % RING_SIZE) = w.getD j 0

/-! ### Helper lemmas about machine-word bit operations -/

theorem shiftLeft_and_eq_zero (a b k : ℕ) (h : b < 2 ^ k) : (a <<< k) &&& b = 0 := by
  apply Nat.eq_of_testBit_eq
  intro i
  simp only [Nat.testBit_and, Nat.testBit_shiftLeft, Nat.zero_testBit, Bool.and_eq_false_iff]
  by_cases hik : k ≤ i
  · right
    have hb : b < 2 ^ i := lt_of_lt_of_le h (Nat.pow_le_pow_right (by norm_num) hik)
    exact Nat.testBit_lt_two_pow hb
  · left
    simp [hik]

theorem shiftLeft_lor_eq_add (a b k : ℕ) (h : b < 2 ^ k) : (a <<< k) ||| b = a * 2 ^ k + b := by
  induction k generalizing a b with
  | zero =>
      interval_cases b
      simp [Nat.shiftLeft_zero]
  | succ k ih =>
      have hsplit : Nat.bit b.bodd b.div2 = b := Nat.bit_decomp b
      have hdiv : b.div2 < 2 ^ k := by
        have := Nat.bodd_add_div2 b
        have h2 : 2 * b.div2 < 2 ^ (k + 1) := by omega
        have : 2 ^ (k + 1) = 2 * 2 ^ k := by ring
        omega
      have hshift : a <<< (k + 1) = Nat.bit false (a <<< k) := by
        simp [Nat.bit, Nat.shiftLeft_eq, pow_succ]
        ring
      calc a <<< (k + 1) ||| b
          = Nat.bit false (a <<< k) ||| Nat.bit b.bodd b.div2 := by rw [hsplit, hshift]
        _ = Nat.bit (false || b.bodd) ((a <<< k) ||| b.div2) := Nat.lor_bit false (a <<< k) b.bodd b.div2
        _ = Nat.bit b.bodd (a * 2 ^ k + b.div2) := by rw [Bool.false_or, ih a b.div2 hdiv]
        _ = a * 2 ^ (k + 1) + b := by
            have h2 : a * 2 ^ (k + 1) = 2 * (a * 2 ^ k) := by ring
            have h3 := Nat.bodd_add_div2 b
            cases hb : b.bodd <;> rw [hb] at h3 <;>
              simp only [Nat.bit, cond_false, cond_true, Bool.toNat_false,
                Bool.toNat_true] at h3 ⊢ <;>
              omega

theorem and_255_eq_mod (n : ℕ) : n &&& 255 = n % 256 := by
  have h := Nat.and_pow_two_sub_one_eq_mod n 8
  norm_num at h
  exact h

theorem packTimecode_eq_arith (h m s f : ℤ) (hh : 0 ≤ h) (hh2 : h < 256) (hm : 0 ≤ m)
    (hm2 : m < 256) (hs : 0 ≤ s) (hs2 : s < 256) (hf : 0 ≤ f) (hf2 : f < 256) :
    packTimecode h m s f =
      h.toNat * 2 ^ 24 + m.toNat * 2 ^ 16 + s.toNat * 2 ^ 8 + f.toNat := by
  unfold packTimecode
  rw [Int.emod_eq_of_lt hh hh2, Int.emod_eq_of_lt hm hm2, Int.emod_eq_of_lt hs hs2,
    Int.emod_eq_of_lt hf hf2]
  have hmn : m.toNat < 256 := by omega
  have hsn : s.toNat < 256 := by omega
  have hfn : f.toNat < 256 := by omega
  rw [shiftLeft_lor_eq_add (h.toNat) (m.toNat <<< 16) 24
    (by rw [Nat.shiftLeft_eq]; norm_num; omega)]
  rw [Nat.shiftLeft_eq m.toNat 16]
  rw [show h.toNat * 2 ^ 24 + m.toNat * 2 ^ 16 = (h.toNat * 2 ^ 8 + m.toNat) * 2 ^ 16 by ring]
  rw [← Nat.shiftLeft_eq (h.toNat * 2 ^ 8 + m.toNat) 16]
  rw [shiftLeft_lor_eq_add (h.toNat * 2 ^ 8 + m.toNat) (s.toNat <<< 8) 16
    (by rw [Nat.shiftLeft_eq]; norm_num; omega)]
  rw [Nat.shiftLeft_eq s.toNat 8, Nat.shiftLeft_eq (h.toNat * 2 ^ 8 + m.toNat) 16]
  rw [show (h.toNat * 2 ^ 8 + m.toNat) * 2 ^ 16 + s.toNat * 2 ^ 8 =
    ((h.toNat * 2 ^ 8 + m.toNat) * 2 ^ 8 + s.toNat) * 2 ^ 8 by ring]
  rw [← Nat.shiftLeft_eq ((h.toNat * 2 ^ 8 + m.toNat) * 2 ^ 8 + s.toNat) 8]
  rw [shiftLeft_lor_eq_add ((h.toNat * 2 ^ 8 + m.toNat) * 2 ^ 8 + s.toNat) f.toNat 8
    (by omega)]
  rw [Nat.shiftLeft_eq]

/-! ### C10: the packed 64-bit timecode form is lossless -/

/-- C10: for every h in 0..23, m in 0..59, s in 0..59 and f in 0..29,
`unpackTimecode (packTimecode h m s f)` returns exactly the timecode
`{h, m, s, f}`: the single-64-bit-word packed form used for atomic
cross-thread exchange is lossless on all valid timecode fields. -/
theorem packUnpackRoundTrip (h m s f : ℤ)
    (hb : 0 ≤ h ∧ h < 24 ∧ 0 ≤ m ∧ m < 60 ∧ 0 ≤ s ∧ s < 60 ∧ 0 ≤ f ∧ f < 30) :
    unpackTimecode (packTimecode h m s f) = ⟨h, m, s, f⟩ := by
  obtain ⟨h1, h2, h3, h4, h5, h6, h7, h8⟩ := hb
  rw [packTimecode_eq_arith h m s f h1 (by omega) h3 (by omega) h5 (by omega)
    h7 (by omega)]
  unfold unpackTimecode
  rw [Nat.shiftRight_eq_div_pow, Nat.shiftRight_eq_div_pow, Nat.shiftRight_eq_div_pow]
  rw [and_255_eq_mod, and_255_eq_mod, and_255_eq_mod, and_255_eq_mod]
  have hhn : h.toNat < 24 := by omega
  have hmn : m.toNat < 60 := by omega
  have hsn : s.toNat < 60 := by omega
  have hfn : f.toNat < 30 := by omega
  simp only [show (2 : ℕ) ^ 24 = 16777216 from by norm_num,
    show (2 : ℕ) ^ 16 = 65536 from by norm_num,
    show (2 : ℕ) ^ 8 = 256 from by norm_num, Timecode.mk.injEq]
  refine ⟨?_, ?_, ?_, ?_⟩
  · have e : (h.toNat * 16777216 + m.toNat * 65536 + s.toNat * 256 + f.toNat) /
        16777216 % 256 = h.toNat := by omega
    rw [e, Int.toNat_of_nonneg h1]
  · have e : (h.toNat * 16777216 + m.toNat * 65536 + s.toNat * 256 + f.toNat) /
        65536 % 256 = m.toNat := by omega
    rw [e, Int.toNat_of_nonneg h3]
  · have e : (h.toNat * 16777216 + m.toNat * 65536 + s.toNat * 256 + f.toNat) /
        256 % 256 = s.toNat := by omega
    rw [e, Int.toNat_of_nonneg h5]
  · have e : (h.toNat * 16777216 + m.toNat * 65536 + s.toNat * 256 + f.toNat) %
        256 = f.toNat := by omega
    rw [e, Int.toNat_of_nonneg h7]

/-- Witness for C10 at the concrete input h = 10, m = 20, s = 30, f = 7. -/
theorem packUnpackRoundTrip_witness :
    unpackTimecode (packTimecode 10 20 30 7) = ⟨10, 20, 30, 7⟩ :=
  packUnpackRoundTrip 10 20 30 7 (by norm_num)

/-! ### C8: incrementFrame never lands on a dropped DF slot -/

/-- C8: for every timecode valid at 29.97 drop-frame, `incrementFrame` never
produces a timecode with frames < 2, seconds = 0 and minutes not a multiple
of 10. -/
theorem incrementFrameAvoidsDroppedSlot (tc : Timecode)
    (hv : validTimecode tc FPS_2997) :
    ¬droppedSlotDF (incrementFrame tc FPS_2997) := by
  obtain ⟨h1, h2, h3, h4, h5, h6, h7, h8, h9⟩ := hv
  have h8' : tc.frames < 30 := by simpa [frameRateToInt] using h8
  have hns : ¬droppedSlotDF tc := h9 rfl
  unfold droppedSlotDF at hns
  unfold incrementFrame droppedSlotDF
  simp only [frameRateToInt, eq_self_iff_true, true_and]
  split_ifs <;> dsimp only <;> omega

/-- Witness for C8 at the concrete input 00:00:59:29 (which increments across
a minute boundary into the dropped slot region and must be bumped to 2). -/
theorem incrementFrameAvoidsDroppedSlot_witness :
    ¬droppedSlotDF (incrementFrame ⟨0, 0, 59, 29⟩ FPS_2997) :=
  incrementFrameAvoidsDroppedSlot ⟨0, 0, 59, 29⟩ (by decide)

/-! ### C1: the DF wall-clock example -/

/-- Evaluation of the drop-frame wall-clock conversion at 3,600,000 ms: after
exactly one hour of real time the DF-labelled timecode is 01:00:00:00
(totalFrames = floor(3600 * 30000 / 1001) = 107892 = 6 * 17982 whole
ten-minute blocks, giving frame number 107892 + 6 * 18 = 108000). -/
theorem wallClockToTimecode_oneHour_eval :
    wallClockToTimecode 3600000 FPS_2997 = ⟨1, 0, 0, 0⟩ := by
  have hfloor : truncQ ((3600000 : ℚ) / 1000 * (30000 / 1001)) = 107892 := by
    have he : ((3600000 : ℚ) / 1000 * (30000 / 1001)) = 108000000 / 1001 := by
      norm_num
    rw [truncQ, he, if_neg (by norm_num)]
    rw [Int.floor_eq_iff]
    constructor <;> norm_num
  unfold wallClockToTimecode
  rw [if_pos rfl]
  dsimp only
  rw [hfloor]
  decide

/-- Counterexample for C1: the code does not return 00:59:56:12 for
3,600,000 ms at 29.97 drop-frame. -/
theorem wallClockDFOneHour_counterexample :
    wallClockToTimecode 3600000 FPS_2997 ≠ ⟨0, 59, 56, 12⟩ := by
  rw [wallClockToTimecode_oneHour_eval]
  decide

/-- C1 (amended): `wallClockToTimecode 3600000 FPS_2997` returns 01:00:00:00 —
drop-frame counting keeps the label aligned with the wall clock, so after one
real hour the label is exactly one hour. -/
theorem wallClockDFOneHour : wallClockToTimecode 3600000 FPS_2997 = ⟨1, 0, 0, 0⟩ :=
  wallClockToTimecode_oneHour_eval

/-! ### C5: the LTC waveform transition that ends bit 79 -/

/-- C5: contrary to the claim that every half-cell transition from half-cell 1
back to half-cell 0 inverts the output level, the transition that ends bit 79
does not invert: the code sets only `needNewFrame` (and the subsequent
frame-load path `ltcLoadNewFrame` does not invert either), so the mandatory
biphase-mark cell-boundary transition at the frame boundary is missing.  For
every earlier bit the cell-boundary inversion does happen. -/
theorem ltcFrameBoundarySkipsInversion (frameBits : ℕ → ℕ) (level : ℤ) :
    (ltcHalfCellAdvance frameBits ⟨79, 1, level, false⟩ =
      ⟨80, 0, level, true⟩) ∧
    (ltcLoadNewFrame (ltcHalfCellAdvance frameBits ⟨79, 1, level, false⟩) =
      ⟨0, 0, level, false⟩) ∧
    (∀ i : ℕ, i < 79 →
      ltcHalfCellAdvance frameBits ⟨i, 1, level, false⟩ =
        ⟨i + 1, 0, -level, false⟩) := by
  refine ⟨rfl, rfl, fun i hi => ?_⟩
  unfold ltcHalfCellAdvance
  rw [if_neg (by norm_num)]
  dsimp only
  rw [if_neg (by unfold LTC_FRAME_BITS; omega)]

/-! ### C3: the Art-Net packet bytes -/

/-- C3: evaluation of the ArtTimeCode packet for timecode 10:20:30.07 at
25 fps.  Bytes 0..9 and 12..18 match the claim, but bytes 10..11 (the
protocol version) are `00 00`, not the claimed `00 0E`; consequently the
repository's own `ArtnetInput::parseArtNetPacket`, which requires
ProtVer >= 14, rejects the encoder's packet. -/
theorem artnetPacketProtVerBug :
    sendArtTimeCode ⟨10, 20, 30, 7⟩ FPS_25 =
      [65, 114, 116, 45, 78, 101, 116, 0, 0x00, 0x97, 0, 0, 0, 0,
        7, 30, 20, 10, 1] ∧
    (sendArtTimeCode ⟨10, 20, 30, 7⟩ FPS_25).getD 10 0 = 0 ∧
    (sendArtTimeCode ⟨10, 20, 30, 7⟩ FPS_25).getD 11 0 = 0 ∧
    parseArtNetPacket (sendArtTimeCode ⟨10, 20, 30, 7⟩ FPS_25) FPS_25 = none := by
  decide

/-! ### C6: the device-conflict policy between LTC output and AudioThru -/

/-- Counterexample for C6: starting the AudioThru on the same device (type
"WASAPI", name "Speakers") as a running, enabled LTC output does not stop the
LTC output and does not take the device — the start fails with a conflict
status while the LTC output keeps running, contradicting the claimed
symmetric ("vice versa") takeover. -/
theorem deviceConflictNotSymmetric_counterexample :
    (startThruOutputE "WASAPI" "Speakers" true
      ⟨true, false, "", "", "", true, "WASAPI", "Speakers", "TX: Speakers",
        true, true, true⟩).1 = false ∧
    (startThruOutputE "WASAPI" "Speakers" true
      ⟨true, false, "", "", "", true, "WASAPI", "Speakers", "TX: Speakers",
        true, true, true⟩).2.ltcOutRunning = true ∧
    (startThruOutputE "WASAPI" "Speakers" true
      ⟨true, false, "", "", "", true, "WASAPI", "Speakers", "TX: Speakers",
        true, true, true⟩).2.thruRunning = false ∧
    (startThruOutputE "WASAPI" "Speakers" true
      ⟨true, false, "", "", "", true, "WASAPI", "Speakers", "TX: Speakers",
        true, true, true⟩).2.thruOutStatusText =
      "CONFLICT: same device as LTC OUT" := by
  decide

/-- C6 (amended): the conflict policy is asymmetric.  Starting an LTC output
on the device of a running AudioThru stops the AudioThru, sets its status to
the conflict text, and the LTC output takes the device; but starting the
AudioThru on the device of a running enabled LTC output fails with the
conflict status and the LTC output keeps the device. -/
theorem deviceConflictPolicy (s : EngineDevState) (typeName devName : String)
    (hdev : devName ≠ "") :
    ((s.hasAudioThru ∧ s.thruRunning ∧ s.thruDevName = devName ∧
        s.thruTypeName = typeName) →
      ((startLtcOutputE typeName devName true s).2.thruRunning = false ∧
       (startLtcOutputE typeName devName true s).2.thruOutStatusText =
         "CONFLICT: same device as LTC OUT" ∧
       (startLtcOutputE typeName devName true s).1 = true ∧
       (startLtcOutputE typeName devName true s).2.ltcOutRunning = true)) ∧
    ((s.hasAudioThru ∧ s.ltcInRunning ∧ s.ltcInHasPassthru ∧
        s.outputLtcEnabled ∧ s.ltcOutRunning ∧ s.ltcOutDevName = devName ∧
        s.ltcOutTypeName = typeName) →
      ((startThruOutputE typeName devName true s).1 = false ∧
       (startThruOutputE typeName devName true s).2.ltcOutRunning = true ∧
       (startThruOutputE typeName devName true s).2.thruRunning = false ∧
       (startThruOutputE typeName devName true s).2.thruOutStatusText =
         "CONFLICT: same device as LTC OUT")) := by
  constructor
  · rintro ⟨ha, hr, hd, ht⟩
    unfold startLtcOutputE stopLtcOutputE stopThruOutputE
    rw [if_neg hdev]
    dsimp only
    rw [if_pos (show s.hasAudioThru = true ∧ s.thruRunning = true ∧
      s.thruDevName = devName ∧ s.thruTypeName = typeName from ⟨ha, hr, hd, ht⟩)]
    exact ⟨rfl, rfl, rfl, rfl⟩
  · rintro ⟨ha, hin, hpass, hen, hr, hd, ht⟩
    unfold startThruOutputE stopThruOutputE
    dsimp only
    rw [if_neg (show ¬¬(s.hasAudioThru = true) from by simp [ha]),
      if_neg (show ¬¬(s.ltcInRunning = true ∧ s.ltcInHasPassthru = true) from
        by simp [hin, hpass]),
      if_neg hdev,
      if_pos (show s.outputLtcEnabled = true ∧ s.ltcOutRunning = true ∧
        s.ltcOutDevName = devName ∧ s.ltcOutTypeName = typeName from
        ⟨hen, hr, hd, ht⟩)]
    exact ⟨rfl, hr, rfl, rfl⟩

/-- Witness for C6 (amended) at concrete states exercising both directions. -/
theorem deviceConflictPolicy_witness :
    (((⟨true, true, "WASAPI", "Speakers", "THRU: Speakers", false, "", "", "",
        false, true, true⟩ : EngineDevState).hasAudioThru ∧ True) →
      (startLtcOutputE "WASAPI" "Speakers" true
        ⟨true, true, "WASAPI", "Speakers", "THRU: Speakers", false, "", "", "",
          false, true, true⟩).2.thruRunning = false) ∧
    (startLtcOutputE "WASAPI" "Speakers" true
      ⟨true, true, "WASAPI", "Speakers", "THRU: Speakers", false, "", "", "",
        false, true, true⟩).2.thruOutStatusText =
      "CONFLICT: same device as LTC OUT" ∧
    (startLtcOutputE "WASAPI" "Speakers" true
      ⟨true, true, "WASAPI", "Speakers", "THRU: Speakers", false, "", "", "",
        false, true, true⟩).2.ltcOutRunning = true := by
  have h := deviceConflictPolicy
    ⟨true, true, "WASAPI", "Speakers", "THRU: Speakers", false, "", "", "",
      false, true, true⟩ "WASAPI" "Speakers" (by decide)
  have h1 := h.1 (by exact ⟨rfl, rfl, rfl, rfl⟩)
  exact ⟨fun _ => h1.1, h1.2.1, h1.2.2.2⟩

/-! ### C4: the Art-Net transmit scheduler -/

/-- Evaluation of the Art-Net timer period at each supported rate:
`jmax(1, (int)(1000.0 / fps))` gives 41, 41, 40, 33, 33 ms. -/
theorem artnetTimerIntervalMs_eval :
    artnetTimerIntervalMs FPS_2398 = 41 ∧ artnetTimerIntervalMs FPS_24 = 41 ∧
    artnetTimerIntervalMs FPS_25 = 40 ∧ artnetTimerIntervalMs FPS_2997 = 33 ∧
    artnetTimerIntervalMs FPS_30 = 33 := by
  have e1 : truncQ ((1000 : ℚ) / (24000 / 1001)) = 41 := by
    rw [truncQ, if_neg (by norm_num), Int.floor_eq_iff]
    constructor <;> norm_num
  have e2 : truncQ ((1000 : ℚ) / 24) = 41 := by
    rw [truncQ, if_neg (by norm_num), Int.floor_eq_iff]
    constructor <;> norm_num
  have e3 : truncQ ((1000 : ℚ) / 25) = 40 := by
    rw [truncQ, if_neg (by norm_num), Int.floor_eq_iff]
    constructor <;> norm_num
  have e4 : truncQ ((1000 : ℚ) / (30000 / 1001)) = 33 := by
    rw [truncQ, if_neg (by norm_num), Int.floor_eq_iff]
    constructor <;> norm_num
  have e5 : truncQ ((1000 : ℚ) / 30) = 33 := by
    rw [truncQ, if_neg (by norm_num), Int.floor_eq_iff]
    constructor <;> norm_num
  refine ⟨?_, ?_, ?_, ?_, ?_⟩ <;> unfold artnetTimerIntervalMs frameRateToDouble
  · rw [e1]; decide
  · rw [e2]; decide
  · rw [e3]; decide
  · rw [e4]; decide
  · rw [e5]; decide

/-- Counterexample for C4: the Art-Net transmit scheduler is not the 1 ms
fractional-accumulator scheduler of the MTC output.  Its timer callback runs
every 40 ms at 25 fps (not every 1 ms), and it sends exactly one packet per
callback, while the MTC scheduler emits up to two catch-up events in a single
1 ms callback (here: 20 ms behind at a 10 ms quarter-frame interval). -/
theorem artnetSchedulerNotMtc_counterexample :
    artnetTimerIntervalMs FPS_25 = 40 ∧
    mtcTimerIntervalMs = 1 ∧
    artnetTimerIntervalMs FPS_25 ≠ mtcTimerIntervalMs ∧
    artnetTimerCallbackSends true true false true ⟨0, 0, 0, 0⟩ FPS_25 =
      [sendArtTimeCode ⟨0, 0, 0, 0⟩ FPS_25] ∧
    (mtcSchedulerEmitCount FPS_25 20 0).1 = 2 := by
  have h := artnetTimerIntervalMs_eval
  refine ⟨h.2.2.1, rfl, by rw [h.2.2.1]; decide, rfl, ?_⟩
  unfold mtcSchedulerEmitCount mtcQfInterval frameRateToDouble
  norm_num

/-- C4 (amended): the Art-Net output does not share the MTC 1 ms
fractional-accumulator scheduler.  It uses a plain periodic `juce::Timer`
whose period is `max(1, trunc(1000 / fps))` milliseconds (41, 41, 40, 33, 33
for the supported rates), and each timer callback sends exactly one packet
when the output is running, enabled, unpaused and has a socket — there is no
`last_send_ms` accumulator, no catch-up and no overrun reset. -/
theorem artnetPlainTimerScheduler :
    (∀ (tc : Timecode) (fps : FrameRate),
      artnetTimerCallbackSends true true false true tc fps =
        [sendArtTimeCode tc fps]) ∧
    (∀ (b1 b2 b3 b4 : Bool) (tc : Timecode) (fps : FrameRate),
      (artnetTimerCallbackSends b1 b2 b3 b4 tc fps).length ≤ 1) ∧
    artnetTimerIntervalMs FPS_2398 = 41 ∧ artnetTimerIntervalMs FPS_24 = 41 ∧
    artnetTimerIntervalMs FPS_25 = 40 ∧ artnetTimerIntervalMs FPS_2997 = 33 ∧
    artnetTimerIntervalMs FPS_30 = 33 := by
  refine ⟨fun tc fps => rfl, fun b1 b2 b3 b4 tc fps => ?_, artnetTimerIntervalMs_eval⟩
  unfold artnetTimerCallbackSends
  split_ifs <;> simp

/-! ### C9: the MTC codec -/

theorem mtcQfStore_qfByte (D : ℕ → ℤ) (tc : Timecode) (fps : FrameRate) (k : ℤ)
    (hk0 : 0 ≤ k) (hk : k ≤ 7) (j : ℕ) :
    mtcQfStore D (mtcQfDataByte tc fps k) j =
      if (j : ℤ) = k then mtcQfValue tc fps k % 16 else D j := by
  unfold mtcQfStore mtcQfDataByte
  have hv0 : 0 ≤ mtcQfValue tc fps k % 16 := Int.emod_nonneg _ (by norm_num)
  have hv16 : mtcQfValue tc fps k % 16 < 16 := Int.emod_lt_of_pos _ (by norm_num)
  have hidx : (k * 16 + mtcQfValue tc fps k % 16) / 16 % 8 = k := by omega
  have hval : (k * 16 + mtcQfValue tc fps k % 16) % 16 = mtcQfValue tc fps k % 16 := by
    omega
  rw [hidx, hval, if_pos ⟨hk0, hk⟩]

theorem mtcQfFold_eval (tc : Timecode) (fps : FrameRate) (d0 : ℕ → ℤ) (j : ℕ)
    (hj : j ≤ 7) :
    List.foldl mtcQfStore d0 (mtcQfStream tc fps) j =
      mtcQfValue tc fps (j : ℤ) % 16 := by
  have hstream : mtcQfStream tc fps =
      [mtcQfDataByte tc fps 0, mtcQfDataByte tc fps 1, mtcQfDataByte tc fps 2,
       mtcQfDataByte tc fps 3, mtcQfDataByte tc fps 4, mtcQfDataByte tc fps 5,
       mtcQfDataByte tc fps 6, mtcQfDataByte tc fps 7] := by
    norm_num [mtcQfStream, List.range_succ]
  rw [hstream]
  simp only [List.foldl_cons, List.foldl_nil]
  rw [mtcQfStore_qfByte _ tc fps 7 (by norm_num) (by norm_num) j,
    mtcQfStore_qfByte _ tc fps 6 (by norm_num) (by norm_num) j,
    mtcQfStore_qfByte _ tc fps 5 (by norm_num) (by norm_num) j,
    mtcQfStore_qfByte _ tc fps 4 (by norm_num) (by norm_num) j,
    mtcQfStore_qfByte _ tc fps 3 (by norm_num) (by norm_num) j,
    mtcQfStore_qfByte _ tc fps 2 (by norm_num) (by norm_num) j,
    mtcQfStore_qfByte _ tc fps 1 (by norm_num) (by norm_num) j,
    mtcQfStore_qfByte _ tc fps 0 (by norm_num) (by norm_num) j]
  interval_cases j <;> norm_num

theorem frameRateToInt_cases (fps : FrameRate) :
    frameRateToInt fps = 24 ∨ frameRateToInt fps = 25 ∨ frameRateToInt fps = 30 := by
  cases fps <;> norm_num [frameRateToInt]

theorem fpsToRateCode_bounds (fps : FrameRate) :
    0 ≤ fpsToRateCode fps ∧ fpsToRateCode fps ≤ 3 := by
  cases fps <;> norm_num [fpsToRateCode]

theorem reconstructDecomp_eq_spec (T maxF : ℤ) (hT : 0 ≤ T)
    (hm : maxF = 24 ∨ maxF = 25 ∨ maxF = 30) :
    (⟨(T.tdiv (maxF * 3600)).tmod 24, (T.tdiv (maxF * 60)).tmod 60,
      (T.tdiv maxF).tmod 60, T.tmod maxF⟩ : Timecode) =
    ⟨(T % (24 * 3600 * maxF) + 24 * 3600 * maxF) % (24 * 3600 * maxF) /
        (3600 * maxF),
      (T % (24 * 3600 * maxF) + 24 * 3600 * maxF) % (24 * 3600 * maxF) /
        (60 * maxF) % 60,
      (T % (24 * 3600 * maxF) + 24 * 3600 * maxF) % (24 * 3600 * maxF) /
        maxF % 60,
      (T % (24 * 3600 * maxF) + 24 * 3600 * maxF) % (24 * 3600 * maxF) % maxF⟩ := by
  rcases hm with rfl | rfl | rfl <;>
    rw [Timecode.mk.injEq,
      Int.tdiv_eq_ediv hT (by norm_num), Int.tdiv_eq_ediv hT (by norm_num),
      Int.tdiv_eq_ediv hT (by norm_num),
      Int.tmod_eq_emod (Int.ediv_nonneg hT (by norm_num)) (by norm_num),
      Int.tmod_eq_emod (Int.ediv_nonneg hT (by norm_num)) (by norm_num),
      Int.tmod_eq_emod (Int.ediv_nonneg hT (by norm_num)) (by norm_num),
      Int.tmod_eq_emod hT (by norm_num)] <;>
    refine ⟨by omega, by omega, by omega, by omega⟩

/-- C9: the MTC decoder applied to a full-frame SysEx carrying a valid `tc`
stores exactly `tc` (no lag compensation), while the decoder applied to a
complete 8-quarter-frame sequence carrying `tc` reconstructs `tc` plus 2
frames, added on the linear frame count modulo the detected rate's modulus
and the 24-hour day. -/
theorem mtcCodecLagCompensation (tc : Timecode) (fps prev : FrameRate)
    (d0 : ℕ → ℤ) (hv : validTimecode tc fps) :
    ((sendFullFrame tc fps).bind
        fun msg => mtcDecodeFullFrame (msg.drop 1).dropLast prev) =
      some (tc, updateDetectedFps prev (fpsToRateCode fps)) ∧
    reconstructAndSync (List.foldl mtcQfStore d0 (mtcQfStream tc fps)) prev =
      (tcPlusFramesSpec tc 2
          (frameRateToInt (updateDetectedFps prev (fpsToRateCode fps))),
        updateDetectedFps prev (fpsToRateCode fps)) := by
  obtain ⟨h1, h2, h3, h4, h5, h6, h7, h8, -⟩ := hv
  obtain ⟨hrc0, hrc3⟩ := fpsToRateCode_bounds fps
  have hmf := frameRateToInt_cases fps
  constructor
  · have hbytes : sendFullFrame tc fps = some [0xF0, 0x7F, 0x7F, 0x01, 0x01,
        tc.hours % 32 + fpsToRateCode fps * 32, tc.minutes % 256,
        tc.seconds % 256, tc.frames % 256, 0xF7] := by
      unfold sendFullFrame
      rw [if_neg (by omega)]
    rw [hbytes, Option.some_bind]
    have hdrop : (([0xF0, 0x7F, 0x7F, 0x01, 0x01,
        tc.hours % 32 + fpsToRateCode fps * 32, tc.minutes % 256,
        tc.seconds % 256, tc.frames % 256, 0xF7] : List ℤ).drop 1).dropLast =
        [0x7F, 0x7F, 0x01, 0x01, tc.hours % 32 + fpsToRateCode fps * 32,
          tc.minutes % 256, tc.seconds % 256, tc.frames % 256] := rfl
    rw [hdrop]
    unfold mtcDecodeFullFrame
    rw [if_pos ⟨by norm_num, rfl, rfl, rfl, rfl⟩]
    simp only [List.getD_cons_succ, List.getD_cons_zero]
    have e1 : (tc.hours % 32 + fpsToRateCode fps * 32) % 32 = tc.hours := by omega
    have e2 : (tc.hours % 32 + fpsToRateCode fps * 32) / 32 % 4 =
        fpsToRateCode fps := by omega
    have e3 : tc.minutes % 256 = tc.minutes := by omega
    have e4 : tc.seconds % 256 = tc.seconds := by omega
    have e5 : tc.frames % 256 = tc.frames := by omega
    rw [e1, e2, e3, e4, e5]
  · have hd0 : List.foldl mtcQfStore d0 (mtcQfStream tc fps) 0 =
        tc.frames % 16 := by
      rw [mtcQfFold_eval tc fps d0 0 (by norm_num)]
      norm_num [mtcQfValue]
    have hd1 : List.foldl mtcQfStore d0 (mtcQfStream tc fps) 1 =
        tc.frames / 16 % 2 := by
      rw [mtcQfFold_eval tc fps d0 1 (by norm_num)]
      norm_num [mtcQfValue]
      omega
    have hd2 : List.foldl mtcQfStore d0 (mtcQfStream tc fps) 2 =
        tc.seconds % 16 := by
      rw [mtcQfFold_eval tc fps d0 2 (by norm_num)]
      norm_num [mtcQfValue]
    have hd3 : List.foldl mtcQfStore d0 (mtcQfStream tc fps) 3 =
        tc.seconds / 16 % 4 := by
      rw [mtcQfFold_eval tc fps d0 3 (by norm_num)]
      norm_num [mtcQfValue]
      omega
    have hd4 : List.foldl mtcQfStore d0 (mtcQfStream tc fps) 4 =
        tc.minutes % 16 := by
      rw [mtcQfFold_eval tc fps d0 4 (by norm_num)]
      norm_num [mtcQfValue]
    have hd5 : List.foldl mtcQfStore d0 (mtcQfStream tc fps) 5 =
        tc.minutes / 16 % 4 := by
      rw [mtcQfFold_eval tc fps d0 5 (by norm_num)]
      norm_num [mtcQfValue]
      omega
    have hd6 : List.foldl mtcQfStore d0 (mtcQfStream tc fps) 6 =
        tc.hours % 16 := by
      rw [mtcQfFold_eval tc fps d0 6 (by norm_num)]
      norm_num [mtcQfValue]
    have hd7 : List.foldl mtcQfStore d0 (mtcQfStream tc fps) 7 =
        tc.hours / 16 % 2 + fpsToRateCode fps * 2 := by
      rw [mtcQfFold_eval tc fps d0 7 (by norm_num)]
      norm_num [mtcQfValue]
      omega
    unfold reconstructAndSync
    dsimp only
    rw [hd0, hd1, hd2, hd3, hd4, hd5, hd6, hd7]
    have hframes : tc.frames % 16 + tc.frames / 16 % 2 * 16 = tc.frames := by
      omega
    have hseconds : tc.seconds % 16 + tc.seconds / 16 % 4 * 16 = tc.seconds := by
      omega
    have hminutes : tc.minutes % 16 + tc.minutes / 16 % 4 * 16 = tc.minutes := by
      omega
    have hhours : tc.hours % 16 + (tc.hours / 16 % 2 + fpsToRateCode fps * 2) %
        2 * 16 = tc.hours := by omega
    have hrate : (tc.hours / 16 % 2 + fpsToRateCode fps * 2) / 2 % 4 =
        fpsToRateCode fps := by omega
    rw [hframes, hseconds, hminutes, hhours, hrate]
    unfold tcPlusFramesSpec
    dsimp only
    rw [Prod.mk.injEq]
    refine ⟨?_, rfl⟩
    exact reconstructDecomp_eq_spec
      (tc.hours * 3600 * frameRateToInt (updateDetectedFps prev (fpsToRateCode fps)) +
        tc.minutes * 60 * frameRateToInt (updateDetectedFps prev (fpsToRateCode fps)) +
        tc.seconds * frameRateToInt (updateDetectedFps prev (fpsToRateCode fps)) +
        tc.frames + 2)
      (frameRateToInt (updateDetectedFps prev (fpsToRateCode fps)))
      (by
        rcases frameRateToInt_cases (updateDetectedFps prev (fpsToRateCode fps))
          with h' | h' | h' <;> rw [h'] <;> omega)
      (frameRateToInt_cases (updateDetectedFps prev (fpsToRateCode fps)))

/-- Witness for C9 at the concrete input 01:02:03.04 at 25 fps (so the
quarter-frame reconstruction yields 01:02:03.06). -/
theorem mtcCodecLagCompensation_witness :
    ((sendFullFrame ⟨1, 2, 3, 4⟩ FPS_25).bind
        fun msg => mtcDecodeFullFrame (msg.drop 1).dropLast FPS_30) =
      some (⟨1, 2, 3, 4⟩, updateDetectedFps FPS_30 (fpsToRateCode FPS_25)) ∧
    reconstructAndSync
        (List.foldl mtcQfStore (fun _ => 0) (mtcQfStream ⟨1, 2, 3, 4⟩ FPS_25))
        FPS_30 =
      (tcPlusFramesSpec ⟨1, 2, 3, 4⟩ 2
          (frameRateToInt (updateDetectedFps FPS_30 (fpsToRateCode FPS_25))),
        updateDetectedFps FPS_30 (fpsToRateCode FPS_25)) :=
  mtcCodecLagCompensation ⟨1, 2, 3, 4⟩ FPS_25 FPS_30 (fun _ => 0) (by decide)

/-! ### C2: rate conversion round trip -/

theorem frameRateToDouble_pos (fps : FrameRate) : 0 < frameRateToDouble fps := by
  cases fps <;> norm_num [frameRateToDouble]

theorem frameRateToDouble_bounds (fps : FrameRate) :
    23 ≤ frameRateToDouble fps ∧ frameRateToDouble fps ≤ 30 := by
  cases fps <;> constructor <;> norm_num [frameRateToDouble]

theorem modulus_sub_one_lt_rate (fps : FrameRate) :
    ((frameRateToInt fps : ℚ)) - 1 < frameRateToDouble fps := by
  cases fps <;> norm_num [frameRateToInt, frameRateToDouble]

theorem rate_le_modulus (fps : FrameRate) :
    frameRateToDouble fps ≤ ((frameRateToInt fps : ℚ)) := by
  cases fps <;> norm_num [frameRateToInt, frameRateToDouble]

theorem truncQ_of_nonneg (q : ℚ) (h : 0 ≤ q) : truncQ q = ⌊q⌋ := by
  rw [truncQ, if_neg (not_lt.mpr h)]

theorem truncQ_int_add_fract (z : ℤ) (hz : 0 ≤ z) (e : ℚ) (h0 : 0 ≤ e)
    (h1 : e < 1) : truncQ ((z : ℚ) + e) = z := by
  rw [truncQ_of_nonneg _ (by positivity), Int.floor_int_add,
    show ⌊e⌋ = 0 from by rw [Int.floor_eq_iff] <;> norm_num [h0, h1]]
  ring

theorem convertTimecodeRate_eval (tc : Timecode) (fromFps toFps : FrameRate)
    (hne : fromFps ≠ toFps) (hfrom : fromFps ≠ FPS_2997)
    (hto : toFps ≠ FPS_2997) (hv : validTimecode tc fromFps) :
    convertTimecodeRate tc fromFps toFps =
      ⟨tc.hours, tc.minutes, tc.seconds,
        ⌊(tc.frames : ℚ) / frameRateToDouble fromFps * frameRateToDouble toFps⌋⟩ ∧
    0 ≤ ⌊(tc.frames : ℚ) / frameRateToDouble fromFps * frameRateToDouble toFps⌋ ∧
    ⌊(tc.frames : ℚ) / frameRateToDouble fromFps * frameRateToDouble toFps⌋ <
      frameRateToInt toFps := by
  obtain ⟨h1, h2, h3, h4, h5, h6, h7, h8, -⟩ := hv
  have hr : 0 < frameRateToDouble fromFps := frameRateToDouble_pos fromFps
  have hr' : 0 < frameRateToDouble toFps := frameRateToDouble_pos toFps
  have hfr0 : 0 ≤ (tc.frames : ℚ) / frameRateToDouble fromFps :=
    div_nonneg (by exact_mod_cast h7) (le_of_lt hr)
  have hfr1 : (tc.frames : ℚ) / frameRateToDouble fromFps < 1 := by
    rw [div_lt_one hr]
    calc (tc.frames : ℚ) ≤ (frameRateToInt fromFps : ℚ) - 1 := by
          have : tc.frames ≤ frameRateToInt fromFps - 1 := by omega
          push_cast
          exact_mod_cast this
      _ < frameRateToDouble fromFps := modulus_sub_one_lt_rate fromFps
  have hprod0 : 0 ≤ (tc.frames : ℚ) / frameRateToDouble fromFps *
      frameRateToDouble toFps := mul_nonneg hfr0 (le_of_lt hr')
  have hprodlt : (tc.frames : ℚ) / frameRateToDouble fromFps *
      frameRateToDouble toFps < (frameRateToInt toFps : ℚ) :=
    lt_of_lt_of_le (by
        calc (tc.frames : ℚ) / frameRateToDouble fromFps * frameRateToDouble toFps
            < 1 * frameRateToDouble toFps := by
              exact mul_lt_mul_of_pos_right hfr1 hr'
          _ = frameRateToDouble toFps := one_mul _)
      (rate_le_modulus toFps)
  have hg0 : 0 ≤ ⌊(tc.frames : ℚ) / frameRateToDouble fromFps *
      frameRateToDouble toFps⌋ := Int.floor_nonneg.mpr hprod0
  have hglt : ⌊(tc.frames : ℚ) / frameRateToDouble fromFps *
      frameRateToDouble toFps⌋ < frameRateToInt toFps := by
    rw [Int.floor_lt]
    exact_mod_cast hprodlt
  refine ⟨?_, hg0, hglt⟩
  unfold convertTimecodeRate
  rw [if_neg hne]
  unfold wallClockToTimecode
  rw [if_neg hto]
  dsimp only
  have hsec : timecodeToMs tc fromFps / 1000 =
      ((tc.hours * 3600 + tc.minutes * 60 + tc.seconds : ℤ) : ℚ) +
        (tc.frames : ℚ) / frameRateToDouble fromFps := by
    unfold timecodeToMs
    rw [if_neg hfrom]
    push_cast
    ring
  rw [hsec]
  have htrunc : truncQ (((tc.hours * 3600 + tc.minutes * 60 + tc.seconds : ℤ) : ℚ) +
      (tc.frames : ℚ) / frameRateToDouble fromFps) =
      tc.hours * 3600 + tc.minutes * 60 + tc.seconds :=
    truncQ_int_add_fract _ (by omega) _ hfr0 hfr1
  rw [htrunc]
  have hfrac : ((tc.hours * 3600 + tc.minutes * 60 + tc.seconds : ℤ) : ℚ) +
      (tc.frames : ℚ) / frameRateToDouble fromFps -
      ((tc.hours * 3600 + tc.minutes * 60 + tc.seconds : ℤ) : ℚ) =
      (tc.frames : ℚ) / frameRateToDouble fromFps := by ring
  rw [hfrac]
  rw [truncQ_of_nonneg _ hprod0]
  rw [Timecode.mk.injEq]
  have ehours : ((tc.hours * 3600 + tc.minutes * 60 + tc.seconds).tdiv 3600).tmod
      24 = tc.hours := by
    rw [Int.tdiv_eq_ediv (by omega) (by norm_num),
      Int.tmod_eq_emod (Int.ediv_nonneg (by omega) (by norm_num)) (by norm_num)]
    omega
  have eminutes : ((tc.hours * 3600 + tc.minutes * 60 + tc.seconds).tdiv 60).tmod
      60 = tc.minutes := by
    rw [Int.tdiv_eq_ediv (by omega) (by norm_num),
      Int.tmod_eq_emod (Int.ediv_nonneg (by omega) (by norm_num)) (by norm_num)]
    omega
  have eseconds : (tc.hours * 3600 + tc.minutes * 60 + tc.seconds).tmod 60 =
      tc.seconds := by
    rw [Int.tmod_eq_emod (by omega) (by norm_num)]
    omega
  have eframes : (⌊(tc.frames : ℚ) / frameRateToDouble fromFps *
      frameRateToDouble toFps⌋).tmod (frameRateToInt toFps) =
      ⌊(tc.frames : ℚ) / frameRateToDouble fromFps * frameRateToDouble toFps⌋ := by
    rw [Int.tmod_eq_emod hg0 (by omega), Int.emod_eq_of_lt hg0 hglt]
  exact ⟨ehours, eminutes, eseconds, eframes⟩

theorem floor_roundtrip_bounds (f : ℤ) (r r' : ℚ) (hr : 0 < r) (hr' : 0 < r')
    (hratio : r < 2 * r') (hf : 0 ≤ f) :
    ⌊((⌊(f : ℚ) / r * r'⌋ : ℤ) : ℚ) / r' * r⌋ ≤ f ∧
    f ≤ ⌊((⌊(f : ℚ) / r * r'⌋ : ℤ) : ℚ) / r' * r⌋ + 2 := by
  have hg_le : ((⌊(f : ℚ) / r * r'⌋ : ℤ) : ℚ) ≤ (f : ℚ) / r * r' := Int.floor_le _
  have hg_gt : (f : ℚ) / r * r' - 1 < ((⌊(f : ℚ) / r * r'⌋ : ℤ) : ℚ) :=
    Int.sub_one_lt_floor _
  constructor
  · have hx : ((⌊(f : ℚ) / r * r'⌋ : ℤ) : ℚ) / r' * r ≤ (f : ℚ) := by
      have step1 : ((⌊(f : ℚ) / r * r'⌋ : ℤ) : ℚ) / r' ≤ ((f : ℚ) / r * r') / r' :=
        (div_le_div_right hr').mpr hg_le
      have step2 : ((⌊(f : ℚ) / r * r'⌋ : ℤ) : ℚ) / r' * r ≤
          ((f : ℚ) / r * r') / r' * r :=
        mul_le_mul_of_nonneg_right step1 (le_of_lt hr)
      have heq : ((f : ℚ) / r * r') / r' * r = (f : ℚ) := by
        field_simp
        ring
      rw [heq] at step2
      exact step2
    calc ⌊((⌊(f : ℚ) / r * r'⌋ : ℤ) : ℚ) / r' * r⌋ ≤ ⌊(f : ℚ)⌋ := Int.floor_mono hx
      _ = f := Int.floor_intCast f
  · have hx : (f : ℚ) - 2 ≤ ((⌊(f : ℚ) / r * r'⌋ : ℤ) : ℚ) / r' * r := by
      have step1 : ((f : ℚ) / r * r' - 1) / r' <
          ((⌊(f : ℚ) / r * r'⌋ : ℤ) : ℚ) / r' := (div_lt_div_right hr').mpr hg_gt
      have step2 : ((f : ℚ) / r * r' - 1) / r' * r <
          ((⌊(f : ℚ) / r * r'⌋ : ℤ) : ℚ) / r' * r :=
        mul_lt_mul_of_pos_right step1 hr
      have heq : ((f : ℚ) / r * r' - 1) / r' * r = (f : ℚ) - r / r' := by
        field_simp
        ring
      rw [heq] at step2
      have hrr : r / r' < 2 := by
        rw [div_lt_iff hr']
        linarith
      linarith
    have := Int.le_floor.mpr (by push_cast; exact hx :
      ((f - 2 : ℤ) : ℚ) ≤ ((⌊(f : ℚ) / r * r'⌋ : ℤ) : ℚ) / r' * r)
    omega

/-- Counterexample for C2: the rate-conversion round trip is not the identity
even between two non-drop-frame rates.  The timecode 00:00:00.01 at 30 fps
converts to 00:00:00.00 at 24 fps (floor of 1/30 x 24 = 0.8), and back to
00:00:00.00 at 30 fps. -/
theorem convertRateRoundTrip_counterexample :
    convertTimecodeRate (convertTimecodeRate ⟨0, 0, 0, 1⟩ FPS_30 FPS_24)
      FPS_24 FPS_30 ≠ ⟨0, 0, 0, 1⟩ := by
  have h1 := (convertTimecodeRate_eval ⟨0, 0, 0, 1⟩ FPS_30 FPS_24
    (by decide) (by decide) (by decide) (by decide)).1
  have hf1 : ⌊((⟨0, 0, 0, 1⟩ : Timecode).frames : ℚ) / frameRateToDouble FPS_30 *
      frameRateToDouble FPS_24⌋ = 0 := by
    show ⌊((1 : ℤ) : ℚ) / frameRateToDouble FPS_30 * frameRateToDouble FPS_24⌋ = 0
    rw [show ((1 : ℤ) : ℚ) / frameRateToDouble FPS_30 * frameRateToDouble FPS_24 =
      4 / 5 from by norm_num [frameRateToDouble]]
    rw [Int.floor_eq_iff] <;> norm_num
  rw [h1, hf1]
  have h2 := (convertTimecodeRate_eval ⟨0, 0, 0, 0⟩ FPS_24 FPS_30
    (by decide) (by decide) (by decide) (by decide)).1
  have hf2 : ⌊((⟨0, 0, 0, 0⟩ : Timecode).frames : ℚ) / frameRateToDouble FPS_24 *
      frameRateToDouble FPS_30⌋ = 0 := by
    show ⌊((0 : ℤ) : ℚ) / frameRateToDouble FPS_24 * frameRateToDouble FPS_30⌋ = 0
    rw [show ((0 : ℤ) : ℚ) / frameRateToDouble FPS_24 * frameRateToDouble FPS_30 =
      0 from by norm_num [frameRateToDouble]]
    norm_num
  rw [h2, hf2]
  decide

/-- C2 (amended): for every timecode valid at `fromFps` and every pair of
non-drop-frame rates, the round trip preserves the hours, minutes and seconds
fields, and the frames field comes back within 2 frames below its original
value (the truncating frame conversion can lose up to 2 frames; it is the
identity only when the two rates are equal). -/
theorem convertRateRoundTrip (tc : Timecode) (fromFps toFps : FrameRate)
    (hfrom : fromFps ≠ FPS_2997) (hto : toFps ≠ FPS_2997)
    (hv : validTimecode tc fromFps) :
    (convertTimecodeRate (convertTimecodeRate tc fromFps toFps) toFps
        fromFps).hours = tc.hours ∧
    (convertTimecodeRate (convertTimecodeRate tc fromFps toFps) toFps
        fromFps).minutes = tc.minutes ∧
    (convertTimecodeRate (convertTimecodeRate tc fromFps toFps) toFps
        fromFps).seconds = tc.seconds ∧
    (convertTimecodeRate (convertTimecodeRate tc fromFps toFps) toFps
        fromFps).frames ≤ tc.frames ∧
    tc.frames ≤ (convertTimecodeRate (convertTimecodeRate tc fromFps toFps)
        toFps fromFps).frames + 2 := by
  by_cases heq : fromFps = toFps
  · subst heq
    unfold convertTimecodeRate
    rw [if_pos rfl, if_pos rfl]
    exact ⟨rfl, rfl, rfl, le_refl _, by omega⟩
  · obtain ⟨h1, h2, h3, h4, h5, h6, h7, h8, hdf⟩ := hv
    obtain ⟨hev1, hg0, hglt⟩ := convertTimecodeRate_eval tc fromFps toFps heq
      hfrom hto ⟨h1, h2, h3, h4, h5, h6, h7, h8, hdf⟩
    rw [hev1]
    have hv2 : validTimecode ⟨tc.hours, tc.minutes, tc.seconds,
        ⌊(tc.frames : ℚ) / frameRateToDouble fromFps *
          frameRateToDouble toFps⌋⟩ toFps :=
      ⟨h1, h2, h3, h4, h5, h6, hg0, hglt, fun hc => absurd hc hto⟩
    obtain ⟨hev2, -, -⟩ := convertTimecodeRate_eval _ toFps fromFps
      (Ne.symm heq) hto hfrom hv2
    rw [hev2]
    have hb := floor_roundtrip_bounds tc.frames (frameRateToDouble fromFps)
      (frameRateToDouble toFps) (frameRateToDouble_pos fromFps)
      (frameRateToDouble_pos toFps)
      (by
        have hu := (frameRateToDouble_bounds fromFps).2
        have hl := (frameRateToDouble_bounds toFps).1
        linarith)
      h7
    exact ⟨rfl, rfl, rfl, hb.1, hb.2⟩

/-- Witness for C2 (amended) at the concrete input 00:00:00.05 at 30 fps
round-tripped through 23.976 fps. -/
theorem convertRateRoundTrip_witness :
    (convertTimecodeRate (convertTimecodeRate ⟨0, 0, 0, 5⟩ FPS_30 FPS_2398)
        FPS_2398 FPS_30).hours = 0 ∧
    (convertTimecodeRate (convertTimecodeRate ⟨0, 0, 0, 5⟩ FPS_30 FPS_2398)
        FPS_2398 FPS_30).frames ≤ 5 ∧
    (5 : ℤ) ≤ (convertTimecodeRate (convertTimecodeRate ⟨0, 0, 0, 5⟩ FPS_30
        FPS_2398) FPS_2398 FPS_30).frames + 2 := by
  have h := convertRateRoundTrip ⟨0, 0, 0, 5⟩ FPS_30 FPS_2398 (by decide)
    (by decide) (by decide)
  exact ⟨h.1, h.2.2.2.1, h.2.2.2.2⟩

/-! ### C7: the pass-through ring buffer -/

theorem writeSeq_miss (l : List ℚ) : ∀ (buf : ℕ → ℚ) (base k : ℕ),
    (∀ i, i < l.length → k ≠ (base + i) % RING_SIZE) →
    writeSeq buf base l k = buf k := by
  induction l with
  | nil => intro buf base k _; rfl
  | cons x xs ih =>
      intro buf base k h
      show writeSeq (fun j => if j = base % RING_SIZE then x else buf j)
        (base + 1) xs k = buf k
      rw [ih _ _ _ ?_]
      · have hk : k ≠ base % RING_SIZE := by
          have h0 := h 0 (by simp)
          simpa using h0
        simp [hk]
      · intro i hi
        have hsucc := h (i + 1) (by simp; omega)
        rw [show base + (i + 1) = base + 1 + i from by ring] at hsucc
        exact hsucc

theorem writeSeq_hit (l : List ℚ) : ∀ (buf : ℕ → ℚ) (base i : ℕ),
    i < l.length → l.length ≤ RING_SIZE →
    writeSeq buf base l ((base + i) % RING_SIZE) = l.getD i 0 := by
  induction l with
  | nil => intro buf base i hi _; simp at hi
  | cons x xs ih =>
      intro buf base i hi hlen
      match i with
      | 0 =>
          show writeSeq (fun j => if j = base % RING_SIZE then x else buf j)
            (base + 1) xs ((base + 0) % RING_SIZE) = x
          rw [writeSeq_miss xs _ _ _ ?_]
          · simp
          · intro j hj
            have hxs : xs.length ≤ RING_SIZE - 1 := by
              simp only [List.length_cons] at hlen
              unfold RING_SIZE at *
              omega
            unfold RING_SIZE at *
            omega
      | i + 1 =>
          show writeSeq (fun j => if j = base % RING_SIZE then x else buf j)
            (base + 1) xs ((base + (i + 1)) % RING_SIZE) = xs.getD i 0
          rw [show base + (i + 1) = base + 1 + i from by ring]
          exact ih _ _ _ (by simp at hi; omega) (by simp at hlen; omega)

theorem u32sub_eq (w r : ℕ) (h1 : r ≤ w) (h2 : w - r < U32) :
    u32sub (w % U32) (r % U32) = w - r := by
  unfold u32sub U32 at *
  omega

theorem u32sub_ring_free (used : ℕ) (h : used ≤ RING_SIZE - 1) :
    u32sub RING_SIZE used = RING_SIZE - used := by
  unfold u32sub U32 RING_SIZE at *
  omega

theorem ringWrite_inv (xs : List ℚ) (g : ℚ) (s : RingState) (w r : List ℚ)
    (hinv : RingInv s w r) :
    RingInv (ringWrite xs g s).2 (w ++ (ringWrite xs g s).1) r := by
  obtain ⟨hw, hr, hlen, hocc, hpre, hbuf⟩ := hinv
  have hused : u32sub s.writePos s.readPos = w.length - r.length := by
    rw [hw, hr]
    exact u32sub_eq _ _ hlen (by unfold U32 RING_SIZE at *; omega)
  have hfree : u32sub RING_SIZE (w.length - r.length) =
      RING_SIZE - (w.length - r.length) := u32sub_ring_free _ hocc
  unfold ringWrite RingInv
  dsimp only
  rw [hused, hfree]
  set toW := if 2 ≤ RING_SIZE - (w.length - r.length) then
    min xs.length (RING_SIZE - (w.length - r.length) - 1) else 0 with htoW
  have htoWle : toW ≤ xs.length := by
    rw [htoW]
    split_ifs <;> omega
  have htoWcap : w.length - r.length + toW ≤ RING_SIZE - 1 := by
    rw [htoW]
    unfold RING_SIZE at *
    split_ifs <;> omega
  have hacc : ((xs.map fun x => x * g).take toW).length = toW := by
    rw [List.length_take, List.length_map]
    omega
  refine ⟨?_, ?_, ?_, ?_, ?_, ?_⟩
  · rw [hw, List.length_append, hacc]
    unfold U32
    omega
  · rw [hr]
  · rw [List.length_append, hacc]
    omega
  · rw [List.length_append, hacc]
    unfold RING_SIZE at *
    omega
  · rw [List.take_append_of_le_length hlen]
    exact hpre
  · intro j hj1 hj2
    rw [List.length_append, hacc] at hj2
    by_cases hcase : j < w.length
    · rw [List.getD_append _ _ _ _ hcase]
      rw [← hbuf j hj1 hcase]
      apply writeSeq_miss
      intro i hi
      rw [hacc] at hi
      rw [hw]
      unfold RING_SIZE U32 at *
      omega
    · rw [List.getD_append_right _ _ _ _ (by omega)]
      have hidx : j % RING_SIZE = (s.writePos + (j - w.length)) % RING_SIZE := by
        rw [hw]
        unfold RING_SIZE U32 at *
        omega
      rw [hidx]
      rw [writeSeq_hit _ _ _ _ (by rw [hacc]; omega)
        (by rw [hacc]; unfold RING_SIZE at *; omega)]

theorem ringRead_inv (n : ℕ) (s : RingState) (w r : List ℚ)
    (hinv : RingInv s w r) :
    RingInv (ringRead n s).2 w
      (r ++ (ringRead n s).1.take (min n (u32sub s.writePos s.readPos))) := by
  obtain ⟨hw, hr, hlen, hocc, hpre, hbuf⟩ := hinv
  have hused : u32sub s.writePos s.readPos = w.length - r.length := by
    rw [hw, hr]
    exact u32sub_eq _ _ hlen (by unfold U32 RING_SIZE at *; omega)
  unfold ringRead RingInv
  dsimp only
  rw [hused]
  set toR := min n (w.length - r.length) with htoR
  have htoRn : toR ≤ n := by omega
  have htoRa : toR ≤ w.length - r.length := by omega
  have hcons : (((List.range n).map fun i =>
      if i < toR then s.buf ((s.readPos + i) % RING_SIZE) else 0).take toR) =
      (w.drop r.length).take toR := by
    apply List.ext_getElem
    · simp
      omega
    · intro j hj1 hj2
      simp only [List.getElem_take, List.getElem_map, List.getElem_range,
        List.getElem_drop]
      simp only [List.length_take, List.length_map, List.length_range] at hj1
      have hjR : j < toR := by omega
      rw [if_pos hjR]
      have hidx : (s.readPos + j) % RING_SIZE = (r.length + j) % RING_SIZE := by
        rw [hr]
        unfold RING_SIZE U32 at *
        omega
      rw [hidx, hbuf (r.length + j) (by omega) (by omega),
        List.getD_eq_getElem _ _ (by omega)]
  have hconsl : (((List.range n).map fun i =>
      if i < toR then s.buf ((s.readPos + i) % RING_SIZE) else 0).take toR).length =
      toR := by
    simp
    omega
  refine ⟨hw, ?_, ?_, ?_, ?_, ?_⟩
  · rw [List.length_append, hconsl, hr]
    unfold U32
    omega
  · rw [List.length_append, hconsl]
    omega
  · rw [List.length_append, hconsl]
    omega
  · rw [List.length_append, hconsl, hcons]
    nth_rewrite 1 [hpre]
    rw [← List.take_add]
  · intro j hj1 hj2
    rw [List.length_append, hconsl] at hj1
    exact hbuf j (by omega) hj2

theorem ringStep_inv (p : RingState × List ℚ × List ℚ) (op : RingOp)
    (h : RingInv p.1 p.2.1 p.2.2) :
    RingInv (ringStep p op).1 (ringStep p op).2.1 (ringStep p op).2.2 := by
  obtain ⟨s, w, r⟩ := p
  cases op with
  | write xs g => exact ringWrite_inv xs g s w r h
  | read n => exact ringRead_inv n s w r h

theorem ringFoldl_inv (ops : List RingOp) :
    ∀ (p : RingState × List ℚ × List ℚ), RingInv p.1 p.2.1 p.2.2 →
      RingInv (ops.foldl ringStep p).1 (ops.foldl ringStep p).2.1
        (ops.foldl ringStep p).2.2 := by
  induction ops with
  | nil => intro p h; exact h
  | cons op ops ih =>
      intro p h
      exact ih (ringStep p op) (ringStep_inv p op h)

theorem ringRun_inv (ops : List RingOp) :
    RingInv (ringRun ops).1 (ringRun ops).2.1 (ringRun ops).2.2 := by
  unfold ringRun
  refine ringFoldl_inv ops (initRing, [], []) ?_
  refine ⟨rfl, rfl, le_refl 0, by simp [RING_SIZE], rfl, ?_⟩
  intro j hj1 hj2
  simp at hj2

/-- C7: for every interleaved sequence of single-producer writes and
single-consumer reads on the pass-through ring buffer from the reset state:
the occupancy `writePos - readPos`, computed with unsigned 32-bit wrap-around,
equals the number of stored-but-unread samples and never exceeds
`RING_SIZE - 1 = 32767`; the read position never overtakes the write position;
the stream of samples returned from the buffer is exactly a prefix of the
stream of samples stored by the producer (so no sample is returned twice, and
every returned sample was previously written, in order); samples are stored
only when at least 2 slots are free; and the unsatisfied tail of a read is
explicitly zero-filled. -/
theorem ringBufferSafety (ops : List RingOp) :
    (u32sub (ringRun ops).1.writePos (ringRun ops).1.readPos =
      (ringRun ops).2.1.length - (ringRun ops).2.2.length ∧
     (ringRun ops).2.1.length - (ringRun ops).2.2.length ≤ RING_SIZE - 1 ∧
     (ringRun ops).2.2.length ≤ (ringRun ops).2.1.length ∧
     (ringRun ops).2.2 = (ringRun ops).2.1.take (ringRun ops).2.2.length) ∧
    (∀ (xs : List ℚ) (g : ℚ) (s : RingState),
      ((ringWrite xs g s).1).length ≠ 0 →
        2 ≤ u32sub RING_SIZE (u32sub s.writePos s.readPos)) ∧
    (∀ (n : ℕ) (s : RingState) (i : ℕ),
      min n (u32sub s.writePos s.readPos) ≤ i → i < n →
        ((ringRead n s).1).getD i 0 = 0) := by
  obtain ⟨hw, hr, hlen, hocc, hpre, -⟩ := ringRun_inv ops
  refine ⟨⟨?_, hocc, hlen, hpre⟩, ?_, ?_⟩
  · rw [hw, hr]
    exact u32sub_eq _ _ hlen (by unfold U32 RING_SIZE at *; omega)
  · intro xs g s h
    unfold ringWrite at h
    dsimp only at h
    by_contra hfree
    rw [if_neg (by omega)] at h
    simp at h
  · intro n s i hi1 hi2
    unfold ringRead
    dsimp only
    rw [List.getD_eq_getElem _ _ (by simpa using hi2)]
    simp only [List.getElem_map, List.getElem_range]
    rw [if_neg (by omega)]

/-- Witness for C7: instantiating the inner quantified clauses at concrete
inputs (a read of 3 samples from the reset state returns zeros in the
unsatisfied tail, and the prefix property holds after a write and a read). -/
theorem ringBufferSafety_witness :
    ((ringRead 3 initRing).1).getD 1 0 = 0 ∧
    (ringRun [RingOp.write [5, 7] 1, RingOp.read 1]).2.2 =
      (ringRun [RingOp.write [5, 7] 1, RingOp.read 1]).2.1.take
        (ringRun [RingOp.write [5, 7] 1, RingOp.read 1]).2.2.length := by
  constructor
  · exact (ringBufferSafety []).2.2 3 initRing 1 (by decide) (by decide)
  · exact (ringBufferSafety [RingOp.write [5, 7] 1, RingOp.read 1]).1.2.2.2
